import Mathlib

/-!
Verification development for the dataset sampling / splitting / validation
engine in src/src/engine/mod.rs.

The engine operates on polars DataFrames.  We shallow-embed a DataFrame as a
row-major table of cell values (Val); machine floats are modelled as exact
rationals, 64-bit integers as Int, usize as Nat.  The external collaborators
(polars Dataset operations, the rand crate RNG, the std float parser) are
modelled by explicit Lean functions or by function parameters, as noted at
each definition.
-/

/-- Cell value of a column, modelling a polars AnyValue.  Floats are modelled
as exact rationals (the engine only multiplies, divides, rounds and compares
them). -/
inductive Val where
  | vNull : Val
  | vInt (n : Int) : Val
  | vFloat (q : ℚ) : Val
  | vStr (s : String) : Val
deriving DecidableEq

/-- Display string of a cell, modelling AnyValue Display as used by
val.to_string() in sample_stratified / split_stratified (engine/mod.rs:713,845).
Integers display in decimal; polars quotes string values; null displays as
"null".  Float display is modelled loosely by the rational toString (the
claims never exercise it). -/
def Val.dispString : Val → String
  | .vNull => "null"
  | .vInt n => ToString.toString n
  | .vFloat q => ToString.toString q
  | .vStr s => "\"" ++ s ++ "\""

/-- A DataFrame: column names plus row-major cells.  The polars invariant that
every column has the same length corresponds to every row having length
names.length; the embedded operations never depend on ragged rows. -/
structure Df where
  names : List String
  rows : List (List Val)
deriving DecidableEq

/-- Row count, modelling DataFrame::height(). -/
def Df.height (d : Df) : Nat := d.rows.length

/-- Single-row slice, modelling df.slice(idx as i64, 1). -/
def Df.slice (d : Df) (i : Nat) : Df := ⟨d.names, (d.rows.drop i).take 1⟩

/-- First n rows, modelling df.head(Some(n)). -/
def Df.head (d : Df) (n : Nat) : Df := ⟨d.names, d.rows.take n⟩

/-- Last n rows, modelling df.tail(Some(n)). -/
def Df.tail (d : Df) (n : Nat) : Df := ⟨d.names, d.rows.drop (d.rows.length - n)⟩

/-- Vertical concatenation, modelling df.vstack (which only fails on schema
mismatch; the engine only ever vstacks slices of one frame, so it is total
here). -/
def Df.vstack (a b : Df) : Df := ⟨a.names, a.rows ++ b.rows⟩

/-- Empty frame, modelling DataFrame::empty(). -/
def Df.emptyDf : Df := ⟨[], []⟩

/-- Fold a list of frames with vstack, modelling the repeated
"if list.is_empty then DataFrame::empty() else fold vstack" blocks in
sample_random, sample_stratified, split_random and split_stratified. -/
def vstackAll : List Df → Df
  | [] => Df.emptyDf
  | d :: t => t.foldl Df.vstack d

/-- Column lookup by name, modelling df.column(name) which errors when the
column is absent (here: none). -/
def Df.column (d : Df) (n : String) : Option (List Val) :=
  match d.names.findIdx? (fun m => m == n) with
  | none => none
  | some j => some (d.rows.map (fun r => r.getD j Val.vNull))

/-- All columns with their names in frame order, modelling
df.get_columns() iteration. -/
def Df.columnsL (d : Df) : List (String × List Val) :=
  d.names.enum.map (fun p => (p.2, d.rows.map (fun r => r.getD p.1 Val.vNull)))

/-- Distinct values in first-occurrence order, modelling
Series::unique() as used on the stratify column (polars leaves the order
unspecified; discovery order is the natural model and matches the spec's
"order distinct values were discovered"). -/
def uniqueVals (l : List Val) : List Val :=
  l.foldl (fun acc v => if v ∈ acc then acc else acc ++ [v]) []

/-- Rust f64::round: round half away from zero. -/
def rustRound (q : ℚ) : Int := if 0 ≤ q then ⌊q + 1/2⌋ else -⌊-q + 1/2⌋

/-- Rust float-to-usize cast, which saturates below at 0. -/
def asUsize (i : Int) : Nat := i.toNat

/-- Errors the embedded engine can surface: a missing column
(anyhow error from df.column), a usize-subtraction / slice panic, and a
failure of the external SQL expression evaluator. -/
inductive EngErr where
  | columnNotFound : EngErr
  | panic : EngErr
  | sqlError : EngErr
deriving DecidableEq

deriving instance DecidableEq for Except

/-- Model of the rand crate StdRng as used by the engine: an abstract state
type with seeding and the two slice-shuffling operations.  shuffleList
models "indices.shuffle(rng)" (the full slice contents afterwards);
partialShuffleList models "indices.partial_shuffle(rng, amount)" (the full
slice contents afterwards; the engine then reads a prefix itself).  Both
return the successor RNG state, mirroring the &mut rng threading. -/
structure RngSpec where
  State : Type
  seedFromU64 : Nat → State
  shuffleList : State → List Nat → List Nat × State
  partialShuffleList : State → Nat → List Nat → List Nat × State

/-- Degenerate RNG model (identity shuffles) used to evaluate the embedding
at concrete inputs; every property proved against it holds of the closed
program text, since the statements never depend on which permutation the
generator produces. -/
def unitRng : RngSpec where
  State := Unit
  seedFromU64 := fun _ => ()
  shuffleList := fun s l => (l, s)
  partialShuffleList := fun s _ l => (l, s)

/-- Embedding of sample_random (engine/mod.rs:669-699).  Seeded: seed a fresh
StdRng, partially shuffle the index vector, take the first sample_size
indices and vstack the corresponding single-row slices.  Unseeded: head. -/
def sample_random (R : RngSpec) (df : Df) (sampleSize0 : Nat)
    (seed : Option Nat) : Df :=
  let totalRows := df.height
  let sampleSize := min sampleSize0 totalRows
  match seed with
  | some seedVal =>
    let rng := R.seedFromU64 seedVal
    let shuffled := (R.partialShuffleList rng sampleSize (List.range totalRows)).1
    let sampleIndices := shuffled.take sampleSize
    vstackAll (sampleIndices.map (fun i => df.slice i))
  | none => df.head sampleSize

/-- Embedding of sample_head (engine/mod.rs:769-772). -/
def sample_head (df : Df) (sampleSize : Nat) : Df :=
  df.head (min sampleSize df.height)

/-- Embedding of sample_tail (engine/mod.rs:774-777). -/
def sample_tail (df : Df) (sampleSize : Nat) : Df :=
  df.tail (min sampleSize df.height)

/-- Loop body of sample_stratified (engine/mod.rs:710-756), one iteration per
distinct value of the stratify column.  Note the source never filters rows to
the current group: filtered is the whole frame (mod.rs:720).  ucount is
unique_values.len(), computed before the loop. -/
def sampleStratStep (R : RngSpec) (df : Df) (stratifyCol : String)
    (sampleSize : Nat) (ucount : Nat)
    (acc : List Df × Option R.State) (v : Val) : List Df × Option R.State :=
  if Val.dispString v == stratifyCol then acc
  else
    let filtered := df
    let groupSize := filtered.height
    let groupSampleSize :=
      min (asUsize (rustRound ((sampleSize : ℚ) / (ucount : ℚ)))) groupSize
    if 0 < groupSampleSize then
      match acc.2 with
      | some rng =>
        let pr := R.partialShuffleList rng groupSampleSize (List.range groupSize)
        let sampleIndices := pr.1.take groupSampleSize
        (acc.1 ++ [vstackAll (sampleIndices.map (fun i => filtered.slice i))],
         some pr.2)
      | none => (acc.1 ++ [filtered.head groupSampleSize], acc.2)
    else acc

/-- Embedding of sample_stratified (engine/mod.rs:701-767). -/
def sample_stratified (R : RngSpec) (df : Df) (sampleSize : Nat)
    (stratifyCol : String) (seed : Option Nat) : Except EngErr Df :=
  match df.column stratifyCol with
  | none => .error .columnNotFound
  | some svals =>
    let uniqueValues := uniqueVals svals
    let res := uniqueValues.foldl
      (sampleStratStep R df stratifyCol sampleSize uniqueValues.length)
      ([], seed.map R.seedFromU64)
    .ok (vstackAll res.1)

/-- Embedding of split_random (engine/mod.rs:779-831).  test_rows is
round(row_count * test_size); train_rows = row_count - test_rows is a usize
subtraction that panics when test_rows exceeds row_count (modelled as an
explicit panic error).  Seeded: shuffle all indices, first train_rows to
train, rest to test.  Unseeded: test = head(test_rows), train = the WHOLE
input frame (mod.rs:827, "just return the original as train"). -/
def split_random (R : RngSpec) (df : Df) (testSize : ℚ)
    (seed : Option Nat) : Except EngErr (Df × Df) :=
  let totalRows := df.height
  let testRows := asUsize (rustRound ((totalRows : ℚ) * testSize))
  if totalRows < testRows then .error .panic
  else
    let trainRows := totalRows - testRows
    match seed with
    | some seedVal =>
      let rng := R.seedFromU64 seedVal
      let shuffled := (R.shuffleList rng (List.range totalRows)).1
      let trainDf := vstackAll ((shuffled.take trainRows).map (fun i => df.slice i))
      let testDf := vstackAll ((shuffled.drop trainRows).map (fun i => df.slice i))
      .ok (trainDf, testDf)
    | none => .ok (df, df.head testRows)

/-- Loop body of split_stratified (engine/mod.rs:842-898): again filtered is
the whole frame (mod.rs:852), so every "group" partitions all rows.
Accumulator: per-group train pieces, per-group test pieces, threaded RNG. -/
def splitStratStep (R : RngSpec) (df : Df) (stratifyCol : String)
    (testSize : ℚ)
    (acc : Except EngErr (List Df × List Df × Option R.State)) (v : Val) :
    Except EngErr (List Df × List Df × Option R.State) :=
  acc.bind (fun st3 =>
    let trainDfs := st3.1
    let testDfs := st3.2.1
    let rngOpt := st3.2.2
    if Val.dispString v == stratifyCol then .ok (trainDfs, testDfs, rngOpt)
    else
      let filtered := df
      let groupSize := filtered.height
      let testGroupSize := asUsize (rustRound ((groupSize : ℚ) * testSize))
      if groupSize < testGroupSize then .error .panic
      else
        let trainGroupSize := groupSize - testGroupSize
        match rngOpt with
        | some rng =>
          let pr := R.shuffleList rng (List.range groupSize)
          let trainIndices := pr.1.take trainGroupSize
          let testIndices := pr.1.drop trainGroupSize
          let newTrain :=
            if trainIndices.isEmpty then trainDfs
            else trainDfs ++ [vstackAll (trainIndices.map (fun i => filtered.slice i))]
          let newTest :=
            if testIndices.isEmpty then testDfs
            else testDfs ++ [vstackAll (testIndices.map (fun i => filtered.slice i))]
          .ok (newTrain, newTest, some pr.2)
        | none =>
          .ok (trainDfs ++ [filtered],
               testDfs ++ [filtered.head testGroupSize], rngOpt))

/-- Embedding of split_stratified (engine/mod.rs:833-921). -/
def split_stratified (R : RngSpec) (df : Df) (testSize : ℚ)
    (stratifyCol : String) (seed : Option Nat) : Except EngErr (Df × Df) :=
  match df.column stratifyCol with
  | none => .error .columnNotFound
  | some svals =>
    let uniqueValues := uniqueVals svals
    (uniqueValues.foldl (splitStratStep R df stratifyCol testSize)
        (.ok ([], [], seed.map R.seedFromU64))).map
      (fun st3 => (vstackAll st3.1, vstackAll st3.2.1))

/-- Severity of a validation finding (engine/mod.rs:334-338). -/
inductive ValidationSeverity where
  | warning : ValidationSeverity
  | error : ValidationSeverity
deriving DecidableEq

/-- A validation finding (engine/mod.rs:325-332). -/
structure ValidationResult where
  column : String
  rule : String
  message : String
  severity : ValidationSeverity
  invalid_count : Nat
deriving DecidableEq

/-- A user-supplied custom rule record (engine/mod.rs:548-556). -/
structure CustomRule where
  name : String
  column : String
  rule_type : String
  expression : String
  message : String
  severity : String
deriving DecidableEq

/-- ASCII lowercase of a character, modelling the effect of Rust
str::to_lowercase on the names the engine inspects. -/
def lowerChar (c : Char) : Char :=
  if 'A' ≤ c ∧ c ≤ 'Z' then Char.ofNat (c.toNat + 32) else c

/-- Lowercased string (ASCII model of str::to_lowercase). -/
def strLower (s : String) : String := String.mk (s.data.map lowerChar)

/-- Contiguous-sublist test on character lists, modelling str::contains. -/
def containsList (hay needle : List Char) : Bool :=
  needle.isPrefixOf hay ||
    match hay with
    | [] => false
    | _ :: t => containsList t needle

/-- Substring test, modelling str::contains. -/
def containsSub (hay needle : String) : Bool := containsList hay.data needle.data

/-- Column-name screen of validate_ranges (engine/mod.rs:458-460): the name
lowercased contains "amount", "price" or "count". -/
def nameFlagged (name : String) : Bool :=
  containsSub (strLower name) "amount" || containsSub (strLower name) "price" ||
    containsSub (strLower name) "count"

/-- Per-cell cast to Float64, modelling Series::cast(&DataType::Float64):
integers and floats cast exactly, null stays null; string cells are modelled
as non-numeric (null under the cast).  The claims under verification only
exercise numeric columns. -/
def castVal : Val → Option ℚ
  | .vNull => none
  | .vInt n => some (n : ℚ)
  | .vFloat q => some q
  | .vStr _ => none

/-- Non-null values of the Float64 view of a column, in row order; the
series iterator filter_map in the source. -/
def nonNullNums (vs : List Val) : List ℚ := vs.filterMap castVal

/-- Mean of the non-null values, modelling series.mean() on a nonempty
series. -/
def qMean (xs : List ℚ) : ℚ := xs.sum / (xs.length : ℚ)

/-- Sample variance with divisor N-1, the square of series.std(1).  The
source compares values against mean plus/minus 3 standard deviations; the
embedding uses the equivalent squared comparison to stay in ℚ. -/
def sampleVar (xs : List ℚ) : ℚ :=
  (xs.map (fun v => (v - qMean xs) ^ 2)).sum / ((xs.length : ℚ) - 1)

/-- Count of values beyond 3 standard deviations from the mean
(engine/mod.rs:441-444), via the exact squared-distance comparison. -/
def outlierCount (xs : List ℚ) : Nat :=
  (xs.filter (fun v => decide (9 * sampleVar xs < (v - qMean xs) ^ 2))).length

/-- Count of strictly negative values (engine/mod.rs:461-464). -/
def negativeCount (xs : List ℚ) : Nat :=
  (xs.filter (fun v => decide (v < 0))).length

/-- Message of an outliers finding (engine/mod.rs:450). -/
def outliersMsg (n : Nat) : String :=
  ToString.toString n ++ " outliers detected (beyond 3σ from mean)"

/-- Message of a negative_values finding (engine/mod.rs:470). -/
def negativeMsg (n : Nat) : String :=
  ToString.toString n ++ " negative values found in column that should be positive"

/-- Findings produced for one column by validate_ranges
(engine/mod.rs:431-479).  The cast of the embedded numeric columns always
succeeds; min and max are Some exactly when some non-null value exists;
std(1) is Some exactly when at least two non-null values exist (polars ddof
behaviour). -/
def rangeFindingsFor (name : String) (vs : List Val) : List ValidationResult :=
  let xs := nonNullNums vs
  if xs.isEmpty then []
  else
    (if 2 ≤ xs.length ∧ 0 < outlierCount xs then
        [⟨name, "outliers", outliersMsg (outlierCount xs), .warning, outlierCount xs⟩]
      else []) ++
    (if nameFlagged name = true ∧ 0 < negativeCount xs then
        [⟨name, "negative_values", negativeMsg (negativeCount xs), .error,
          negativeCount xs⟩]
      else [])

/-- Embedding of validate_ranges (engine/mod.rs:428-482): run the per-column
check over every column and concatenate the findings in column order. -/
def validate_ranges (df : Df) : List ValidationResult :=
  df.columnsL.flatMap (fun p => rangeFindingsFor p.1 p.2)

/-- All-digit test for a character list. -/
def digitsOnly (cs : List Char) : Bool := cs.all Char.isDigit

/-- Decimal value of a digit list. -/
def natOfDigits (cs : List Char) : Nat :=
  cs.foldl (fun a c => a * 10 + (c.toNat - 48)) 0

/-- Split a character list at the first dot; none when more than one dot
occurs. -/
def splitAtDot : List Char → Option (List Char × List Char)
  | [] => some ([], [])
  | '.' :: t => if t.contains '.' then none else some ([], t)
  | c :: t =>
    match splitAtDot t with
    | some (ip, fp) => some (c :: ip, fp)
    | none => none

/-- Model of Rust str::parse::<f64>() for plain decimal literals: optional
sign, integer digits, optional fractional digits, at least one digit overall.
Exponent, infinity and NaN forms are not modelled; the rules under
verification only use plain decimals or unparseable strings. -/
def rustParseF64 (s : String) : Option ℚ :=
  let withSign : Bool × List Char :=
    match s.data with
    | '-' :: t => (true, t)
    | '+' :: t => (false, t)
    | t => (false, t)
  match splitAtDot withSign.2 with
  | some (ip, fp) =>
    if digitsOnly ip ∧ digitsOnly fp ∧ ¬(ip.isEmpty ∧ fp.isEmpty) then
      let v : ℚ := (natOfDigits ip : ℚ) + (natOfDigits fp : ℚ) / ((10 : ℚ) ^ fp.length)
      some (if withSign.1 then -v else v)
    else none
  | none => none

/-- Split a character list on commas, modelling str::split(',') as used on a
range rule expression (engine/mod.rs:511). -/
def splitCommas : List Char → List (List Char)
  | [] => [[]]
  | ',' :: t => [] :: splitCommas t
  | c :: t =>
    match splitCommas t with
    | h :: r => (c :: h) :: r
    | [] => [[c]]

/-- Strip leading and trailing ASCII whitespace, modelling str::trim on the
range bounds. -/
def trimChars (cs : List Char) : List Char :=
  ((cs.dropWhile (fun c => c == ' ')).reverse.dropWhile (fun c => c == ' ')).reverse

/-- Parse of a range rule expression "min,max" (engine/mod.rs:511-513):
exactly two comma-separated fields, both parsing as floats. -/
def parseRangeBounds (e : String) : Option (ℚ × ℚ) :=
  match splitCommas e.data with
  | [a, b] =>
    match rustParseF64 (String.mk (trimChars a)), rustParseF64 (String.mk (trimChars b)) with
    | some mn, some mx => some (mn, mx)
    | _, _ => none
  | _ => none

/-- Declared severity of a custom rule (engine/mod.rs:502): "error" maps to
Error, everything else to Warning. -/
def sevOf (s : String) : ValidationSeverity :=
  if s == "error" then .error else .warning

/-- Message of a range rule finding (engine/mod.rs:523). -/
def rangeRuleMsg (n : Nat) (mn mx : ℚ) : String :=
  ToString.toString n ++ " values outside range [" ++ ToString.toString mn ++
    ", " ++ ToString.toString mx ++ "]"

/-- Embedding of validate_custom_rules (engine/mod.rs:484-546), abstracted
over the external SQL expression evaluator sqlEval (the composition
df.lazy().filter(sql_expr(e)).collect() at mod.rs:495-496); rules are taken
as already-deserialized records (the file read at mod.rs:488-489 is the IO
boundary).  Dispatch is on the rule_type STRING: "sql", "range", anything
else is an unconditional unknown-rule-type Error. -/
def validate_custom_rules (sqlEval : Df → String → Except EngErr Df)
    (df : Df) (rules : List CustomRule) : Except EngErr (List ValidationResult) :=
  rules.foldl (fun acc rule =>
    acc.bind (fun results =>
      match rule.rule_type with
      | "sql" =>
        (sqlEval df rule.expression).map (fun invalidDf =>
          if 0 < invalidDf.height then
            results ++ [⟨rule.column, rule.name, rule.message,
              sevOf rule.severity, invalidDf.height⟩]
          else results)
      | "range" =>
        match df.column rule.column with
        | none => .error .columnNotFound
        | some vs =>
          match parseRangeBounds rule.expression with
          | some p =>
            let invalidCount :=
              ((nonNullNums vs).filter
                (fun v => decide (v < p.1 ∨ p.2 < v))).length
            if 0 < invalidCount then
              .ok (results ++ [⟨rule.column, rule.name,
                rangeRuleMsg invalidCount p.1 p.2, sevOf rule.severity,
                invalidCount⟩])
            else .ok results
          | none => .ok results
      | _ =>
        .ok (results ++ [⟨rule.column, rule.name,
          "Unknown rule type: " ++ rule.rule_type, .error, 0⟩])))
    (.ok [])

/-- Embedding of the error verdict of validate_cmd (engine/mod.rs:317):
has_errors is true when any finding has Error severity. -/
def hasErrors (rs : List ValidationResult) : Bool :=
  rs.any (fun r => decide (r.severity = ValidationSeverity.error))

/-- Process exit decision of validate_cmd (engine/mod.rs:318-320):
exit code 1 when has_errors, otherwise the command returns Ok (exit 0). -/
def validateExitCode (rs : List ValidationResult) : Nat :=
  if hasErrors rs then 1 else 0

/-! Concrete inputs used by witnesses and counterexamples. -/

/-- Two-row frame with one integer column named g, values 1 and 2. -/
def dfG : Df := ⟨["g"], [[.vInt 1], [.vInt 2]]⟩

/-- One-row frame with a single float column named price containing -5. -/
def dfPrice : Df := ⟨["price"], [[.vFloat (-5)]]⟩

/-- Two-row frame whose single column is named 7 and holds the integer 7
twice, so every distinct value displays exactly as the column name. -/
def dfSeven : Df := ⟨["7"], [[.vInt 7], [.vInt 7]]⟩

/-- Two-row frame whose single column is named 1 and holds integers 1 and 2,
so exactly the first distinct value displays as the column name. -/
def dfOne : Df := ⟨["1"], [[.vInt 1], [.vInt 2]]⟩

/-- SQL evaluator stub selecting no rows, for closed instantiations. -/
def sqlEvalNone : Df → String → Except EngErr Df := fun _ _ => .ok Df.emptyDf

/-- SQL evaluator stub selecting the first row, for closed instantiations. -/
def sqlEvalHead : Df → String → Except EngErr Df := fun d _ => .ok (d.head 1)

/-! General lemmas about the embedded frame operations. -/

/-- Heights add under vstack. -/
theorem Df.height_vstack (a b : Df) : (a.vstack b).height = a.height + b.height := by
  simp [Df.vstack, Df.height]

/-- Height of a vstack fold. -/
theorem height_foldl_vstack (t : List Df) (d : Df) :
    (t.foldl Df.vstack d).height = d.height + (t.map Df.height).sum := by
  induction t generalizing d with
  | nil => simp
  | cons a t ih =>
    rw [List.foldl_cons, ih, Df.height_vstack]
    simp [Nat.add_assoc]

/-- Height of vstackAll is the sum of the heights. -/
theorem vstackAll_height (l : List Df) : (vstackAll l).height = (l.map Df.height).sum := by
  cases l with
  | nil => rfl
  | cons d t => simp [vstackAll, height_foldl_vstack]

/-- A single-row slice at a valid index has one row. -/
theorem Df.height_slice_lt {d : Df} {i : Nat} (h : i < d.height) :
    (d.slice i).height = 1 := by
  simp only [Df.slice, Df.height, List.length_take, List.length_drop] at *
  omega

/-- A nonpositive rational rounds to usize 0 (the as-usize cast saturates). -/
theorem asUsize_rustRound_nonpos {q : ℚ} (h : q ≤ 0) :
    asUsize (rustRound q) = 0 := by
  unfold rustRound asUsize
  by_cases h0 : 0 ≤ q
  · have hq0 : q = 0 := le_antisymm h h0
    subst hq0
    norm_num
  · rw [if_neg h0]
    apply Int.toNat_of_nonpos
    have h1 : (0 : ℚ) ≤ -q + 1/2 := by
      have := lt_of_not_ge h0
      linarith
    have h2 : (0 : ℤ) ≤ ⌊-q + 1/2⌋ := by
      rw [Int.le_floor]
      exact_mod_cast h1
    omega

/-- Membership fold helper for uniqueVals. -/
theorem mem_uniqueVals_aux (l : List Val) (acc : List Val) (v : Val)
    (h : v ∈ l.foldl (fun acc v => if v ∈ acc then acc else acc ++ [v]) acc) :
    v ∈ acc ∨ v ∈ l := by
  induction l generalizing acc with
  | nil => exact Or.inl h
  | cons a t ih =>
    rw [List.foldl_cons] at h
    rcases ih _ h with hacc | ht
    · by_cases ha : a ∈ acc
      · rw [if_pos ha] at hacc
        exact Or.inl hacc
      · rw [if_neg ha] at hacc
        rcases List.mem_append.mp hacc with h1 | h2
        · exact Or.inl h1
        · exact Or.inr (by simp [List.mem_singleton.mp h2])
    · exact Or.inr (List.mem_cons_of_mem _ ht)

/-- Every distinct value comes from the column. -/
theorem mem_uniqueVals {v : Val} {l : List Val} (h : v ∈ uniqueVals l) : v ∈ l := by
  rcases mem_uniqueVals_aux l [] v h with h0 | h1
  · simp at h0
  · exact h1

/-- The stratified-sample loop body ignores a value displaying as the column
name. -/
theorem sampleStratStep_skip (R : RngSpec) (df : Df) (col : String)
    (size ucount : Nat) (acc : List Df × Option R.State) (v : Val)
    (h : Val.dispString v = col) :
    sampleStratStep R df col size ucount acc v = acc := by
  simp [sampleStratStep, h]

/-- A run of the stratified-sample loop over only skipped values is the
identity. -/
theorem foldl_sampleStratStep_skip (R : RngSpec) (df : Df) (col : String)
    (size ucount : Nat) (l : List Val) (acc : List Df × Option R.State)
    (h : ∀ v ∈ l, Val.dispString v = col) :
    l.foldl (sampleStratStep R df col size ucount) acc = acc := by
  induction l generalizing acc with
  | nil => rfl
  | cons a t ih =>
    rw [List.foldl_cons, sampleStratStep_skip R df col size ucount acc a (h a (by simp))]
    exact ih _ (fun v hv => h v (by simp [hv]))

/-- The stratified-split loop body ignores a value displaying as the column
name. -/
theorem splitStratStep_skip (R : RngSpec) (df : Df) (col : String) (f : ℚ)
    (acc : Except EngErr (List Df × List Df × Option R.State)) (v : Val)
    (h : Val.dispString v = col) :
    splitStratStep R df col f acc v = acc := by
  cases acc with
  | error e => rfl
  | ok st3 => simp [splitStratStep, Except.bind, h]

/-- A run of the stratified-split loop over only skipped values is the
identity. -/
theorem foldl_splitStratStep_skip (R : RngSpec) (df : Df) (col : String)
    (f : ℚ) (l : List Val)
    (acc : Except EngErr (List Df × List Df × Option R.State))
    (h : ∀ v ∈ l, Val.dispString v = col) :
    l.foldl (splitStratStep R df col f) acc = acc := by
  induction l generalizing acc with
  | nil => rfl
  | cons a t ih =>
    rw [List.foldl_cons, splitStratStep_skip R df col f acc a (h a (by simp))]
    exact ih _ (fun v hv => h v (by simp [hv]))

/-! Claim theorems. -/

/-- C6: for every column castable to floating point whose name contains
"amount", "price" or "count" case-insensitively, validate_ranges emits an
Error negative_values finding whose invalid_count is the number of strictly
negative non-null values, whenever at least one such value exists. -/
theorem c6_negative_values_finding (df : Df) (name : String) (vs : List Val)
    (hmem : (name, vs) ∈ df.columnsL)
    (hname : nameFlagged name = true)
    (hneg : 0 < negativeCount (nonNullNums vs)) :
    (⟨name, "negative_values", negativeMsg (negativeCount (nonNullNums vs)),
      .error, negativeCount (nonNullNums vs)⟩ : ValidationResult) ∈
      validate_ranges df := by
  have hxs : (nonNullNums vs).isEmpty = false := by
    cases h : nonNullNums vs with
    | nil =>
      rw [h] at hneg
      simp [negativeCount] at hneg
    | cons a t => simp
  unfold validate_ranges
  refine List.mem_flatMap.mpr ⟨(name, vs), hmem, ?_⟩
  simp only [rangeFindingsFor, hxs, Bool.false_eq_true, if_false]
  refine List.mem_append.mpr (Or.inr ?_)
  rw [if_pos ⟨hname, hneg⟩]
  exact List.mem_singleton.mpr rfl

/-- Witness for C6: the spec's own example, a column literally named price
containing -5, yields the Error negative_values finding with
invalid_count 1. -/
theorem c6_negative_values_finding_witness :
    nameFlagged "price" = true ∧ 0 < negativeCount (nonNullNums [Val.vFloat (-5)]) ∧
    (⟨"price", "negative_values", negativeMsg 1, .error, 1⟩ : ValidationResult) ∈
      validate_ranges dfPrice := by
  have hm : ("price", [Val.vFloat (-5)]) ∈ dfPrice.columnsL := by decide
  have hn : nameFlagged "price" = true := by decide
  have hg : 0 < negativeCount (nonNullNums [Val.vFloat (-5)]) := by decide
  have hc : negativeCount (nonNullNums [Val.vFloat (-5)]) = 1 := by decide
  have h := c6_negative_values_finding dfPrice "price" [Val.vFloat (-5)] hm hn hg
  rw [hc] at h
  exact ⟨hn, hg, h⟩

/-- C7: the report's has_errors verdict is true exactly when some finding has
Error severity, and the validate command exits non-zero exactly in that case;
Warning-only findings never fail the run. -/
theorem c7_has_errors_iff_error_finding (rs : List ValidationResult) :
    (hasErrors rs = true ↔ ∃ r ∈ rs, r.severity = ValidationSeverity.error) ∧
    (validateExitCode rs ≠ 0 ↔ ∃ r ∈ rs, r.severity = ValidationSeverity.error) := by
  have h1 : hasErrors rs = true ↔ ∃ r ∈ rs, r.severity = ValidationSeverity.error := by
    simp [hasErrors, List.any_eq_true]
  refine ⟨h1, ?_⟩
  rw [← h1]
  by_cases h : hasErrors rs <;> simp [validateExitCode, h]

/-- C8: the seeded random sampler is deterministic: it reads no ambient
state, its RNG is seeded afresh from the argument, so two calls with equal
dataset, size and seed return identical results. -/
theorem c8_seeded_sample_deterministic (R : RngSpec) (df1 df2 : Df)
    (n1 n2 s1 s2 : Nat) (hd : df1 = df2) (hn : n1 = n2) (hs : s1 = s2) :
    sample_random R df1 n1 (some s1) = sample_random R df2 n2 (some s2) := by
  subst hd; subst hn; subst hs; rfl

/-- Witness for C8 at a concrete frame, size and seed. -/
theorem c8_seeded_sample_deterministic_witness :
    sample_random unitRng dfG 1 (some 5) = sample_random unitRng dfG 1 (some 5) :=
  c8_seeded_sample_deterministic unitRng dfG dfG 1 1 5 5 rfl rfl rfl

/-- C2 counterexample: on a two-row frame with test_fraction 1/2 the unseeded
split returns the WHOLE input as train (together with test = first row), not
the remaining rows: the remainder after the first test row differs from what
train actually holds. -/
theorem c2_unseeded_split_train_is_whole_input :
    split_random unitRng dfG (1/2) none = .ok (dfG, dfG.head 1) ∧
    dfG.rows ≠ dfG.rows.drop 1 := by
  constructor
  · have h1 : asUsize (rustRound (1 : ℚ)) = 1 := by
      norm_num [asUsize, rustRound]
    simp only [split_random, dfG, Df.height]
    norm_num [h1]
  · decide

/-- C2 amended: the unseeded non-stratified split is deterministic, with
test the first round(row_count * f) rows, but train is the ENTIRE input
frame (all rows in original order), overlapping test, rather than the
remaining rows. -/
theorem c2_unseeded_split_head_and_full_train (R : RngSpec) (df : Df) (f : ℚ)
    (h : asUsize (rustRound ((df.height : ℚ) * f)) ≤ df.height) :
    split_random R df f none =
      .ok (df, df.head (asUsize (rustRound ((df.height : ℚ) * f)))) := by
  simp only [split_random]
  rw [if_neg (Nat.not_lt.mpr h)]

/-- Witness for the amended C2 on the concrete two-row frame. -/
theorem c2_unseeded_split_head_and_full_train_witness :
    asUsize (rustRound ((dfG.height : ℚ) * (1/2))) ≤ dfG.height ∧
    split_random unitRng dfG (1/2) none =
      .ok (dfG, dfG.head (asUsize (rustRound ((dfG.height : ℚ) * (1/2))))) := by
  have h : asUsize (rustRound ((dfG.height : ℚ) * (1/2))) ≤ dfG.height := by
    norm_num [dfG, Df.height, asUsize, rustRound]
  exact ⟨h, c2_unseeded_split_head_and_full_train unitRng dfG (1/2) h⟩

/-- C3 counterexample: test_fraction 0 lies outside (0,1), yet split_random
succeeds and produces train/test output (all rows to train, empty test)
instead of failing with InvalidArgument. -/
theorem c3_zero_fraction_split_succeeds :
    split_random unitRng dfG 0 (some 1) = .ok (dfG, Df.emptyDf) := by
  have h0 : asUsize (rustRound (0 : ℚ)) = 0 := by
    norm_num [asUsize, rustRound]
  simp only [split_random, dfG, Df.height]
  norm_num [h0, unitRng, vstackAll, Df.slice, Df.vstack, Df.emptyDf, List.range_succ]
  constructor <;> decide

/-- C3 amended: split validates nothing about the fraction.  Any fraction
f ≤ 0 rounds to zero test rows and the call succeeds, returning an empty
test set and a train of full height (no InvalidArgument; for f large enough
that test rows exceed row_count, the usize subtraction panics instead). -/
theorem c3_nonpositive_fraction_splits_without_error (R : RngSpec)
    (hperm : ∀ st l, ((R.shuffleList st l).1).Perm l)
    (df : Df) (f : ℚ) (seed : Option Nat) (hf : f ≤ 0) :
    ∃ tr te, split_random R df f seed = .ok (tr, te) ∧
      tr.height = df.height ∧ te.height = 0 := by
  have hq : ((df.height : ℚ)) * f ≤ 0 := by
    have hc : (0 : ℚ) ≤ (df.height : ℚ) := Nat.cast_nonneg _
    nlinarith
  have h0 : asUsize (rustRound ((df.height : ℚ) * f)) = 0 :=
    asUsize_rustRound_nonpos hq
  simp only [split_random, h0]
  rw [if_neg (by omega)]
  cases seed with
  | none =>
    refine ⟨df, df.head 0, rfl, rfl, ?_⟩
    simp [Df.head, Df.height]
  | some s =>
    have hp : ((R.shuffleList (R.seedFromU64 s) (List.range df.height)).1).Perm
        (List.range df.height) := hperm _ _
    have hlen : ((R.shuffleList (R.seedFromU64 s) (List.range df.height)).1).length
        = df.height := by simpa using hp.length_eq
    have hmemlt : ∀ i ∈ (R.shuffleList (R.seedFromU64 s) (List.range df.height)).1,
        i < df.height := fun i hi => List.mem_range.mp (hp.subset hi)
    refine ⟨_, _, rfl, ?_, ?_⟩
    · rw [vstackAll_height]
      have htake : ((R.shuffleList (R.seedFromU64 s) (List.range df.height)).1).take
          (df.height - 0) = (R.shuffleList (R.seedFromU64 s) (List.range df.height)).1 := by
        rw [Nat.sub_zero]
        exact List.take_of_length_le (le_of_eq hlen)
      rw [htake, List.map_map]
      have hone : ∀ i ∈ (R.shuffleList (R.seedFromU64 s) (List.range df.height)).1,
          (Df.height ∘ fun i => df.slice i) i = 1 := by
        intro i hi
        simp [Df.height_slice_lt (hmemlt i hi)]
      rw [List.map_congr_left hone]
      simp [hlen]
    · rw [vstackAll_height]
      have hdrop : ((R.shuffleList (R.seedFromU64 s) (List.range df.height)).1).drop
          (df.height - 0) = [] := by
        rw [Nat.sub_zero]
        exact List.drop_of_length_le (le_of_eq hlen)
      rw [hdrop]
      rfl

/-- Witness for the amended C3: fraction 0 on the concrete two-row frame,
seeded, splits without error into two rows of train and an empty test. -/
theorem c3_nonpositive_fraction_splits_without_error_witness :
    ∃ tr te, split_random unitRng dfG 0 (some 1) = .ok (tr, te) ∧
      tr.height = dfG.height ∧ te.height = 0 :=
  c3_nonpositive_fraction_splits_without_error unitRng
    (fun st l => by simp [unitRng]) dfG 0 (some 1) (by norm_num)

/-- C4 counterexample: a rule whose rule_type is the string "expression"
never reaches the expression evaluator; even with an evaluator selecting no
rows (where the claim predicts no finding) the validator emits an
unconditional unknown-rule-type Error finding. -/
theorem c4_expression_rule_type_is_unknown :
    validate_custom_rules sqlEvalNone dfG
        [⟨"r1", "g", "expression", "g > 0", "bad rows", "error"⟩] =
      .ok [⟨"g", "r1", "Unknown rule type: expression", .error, 0⟩] ∧
    ([] : List ValidationResult) ≠
      [⟨"g", "r1", "Unknown rule type: expression", .error, 0⟩] := by
  constructor
  · decide
  · decide

/-- C4 amended: the expression-evaluator path is keyed by
rule_type == "sql", not "expression": for such a rule the dataset is
filtered by the expression through the external evaluator and a finding with
the rule's declared severity and the matched row count is emitted exactly
when at least one row matched. -/
theorem c4_sql_rule_type_runs_evaluator (sqlEval : Df → String → Except EngErr Df)
    (df fdf : Df) (rule : CustomRule)
    (hrt : rule.rule_type = "sql")
    (heval : sqlEval df rule.expression = .ok fdf) :
    validate_custom_rules sqlEval df [rule] =
      .ok (if 0 < fdf.height then
          [⟨rule.column, rule.name, rule.message, sevOf rule.severity, fdf.height⟩]
        else []) := by
  simp [validate_custom_rules, hrt, heval, Except.bind, Except.map]

/-- Witness for the amended C4: an evaluator selecting the first row of the
two-row frame produces the rule's finding with invalid_count 1. -/
theorem c4_sql_rule_type_runs_evaluator_witness :
    validate_custom_rules sqlEvalHead dfG [⟨"r1", "g", "sql", "e", "m", "warning"⟩] =
      .ok (if 0 < (dfG.head 1).height then
          [⟨"g", "r1", "m", sevOf "warning", (dfG.head 1).height⟩]
        else []) :=
  c4_sql_rule_type_runs_evaluator sqlEvalHead dfG (dfG.head 1)
    ⟨"r1", "g", "sql", "e", "m", "warning"⟩ rfl rfl

/-- C9 counterexample: a range rule with a malformed expression is NOT always
silently skipped: the column lookup runs first, so when the rule names an
absent column the whole validation fails with an error rather than emitting
no finding and succeeding. -/
theorem c9_malformed_range_rule_missing_column_fails :
    validate_custom_rules sqlEvalNone dfG
        [⟨"r1", "zzz", "range", "abc", "m", "error"⟩] =
      .error .columnNotFound := by
  decide

/-- C9 amended: provided the rule's target column exists in the dataset, a
range rule whose expression does not parse as exactly two comma-separated
floats contributes no finding and no error: it is silently skipped. -/
theorem c9_malformed_range_rule_skipped (E : Df → String → Except EngErr Df)
    (df : Df) (rule : CustomRule) (vs : List Val)
    (hrt : rule.rule_type = "range")
    (hcol : df.column rule.column = some vs)
    (hparse : parseRangeBounds rule.expression = none) :
    validate_custom_rules E df [rule] = .ok [] := by
  simp [validate_custom_rules, hrt, hcol, hparse, Except.bind]

/-- Witness for the amended C9 on the concrete frame: a range rule on the
existing column g with unparseable bounds "abc" yields no finding and no
error. -/
theorem c9_malformed_range_rule_skipped_witness :
    dfG.column "g" = some [Val.vInt 1, Val.vInt 2] ∧
    parseRangeBounds "abc" = none ∧
    validate_custom_rules sqlEvalNone dfG
        [⟨"r1", "g", "range", "abc", "m", "error"⟩] = .ok [] := by
  have hcol : dfG.column "g" = some [Val.vInt 1, Val.vInt 2] := by decide
  have hparse : parseRangeBounds "abc" = none := by decide
  exact ⟨hcol, hparse,
    c9_malformed_range_rule_skipped sqlEvalNone dfG
      ⟨"r1", "g", "range", "abc", "m", "error"⟩ [Val.vInt 1, Val.vInt 2]
      rfl hcol hparse⟩

/-- C10 counterexample: on the frame whose column is named 1 with values 1
and 2, the distinct value 1 displays as the column name and its loop
iteration is skipped, yet the unseeded stratified sample still returns the
row with value 1 (group 2 draws the head of the WHOLE frame), so the
"skipped" group does contribute rows to the output. -/
theorem c10_skipped_group_rows_still_sampled :
    sample_stratified unitRng dfOne 2 "1" none =
      .ok ⟨["1"], [[Val.vInt 1]]⟩ ∧ Val.dispString (Val.vInt 1) = "1" := by
  constructor
  · have h1 : asUsize (rustRound (1 : ℚ)) = 1 := by
      norm_num [asUsize, rustRound]
    simp only [sample_stratified, dfOne]
    norm_num +decide [sampleStratStep, uniqueVals, Df.column, Df.height,
      Val.dispString, h1, vstackAll, Df.head, unitRng]
  · decide

/-- C10 amended: the loop iteration for a distinct value displaying as the
column name is skipped, so when EVERY value of the stratify column displays
as the column name, the stratified sample is empty and the stratified split
returns two empty frames; but rows of a skipped group can still reach the
output through the other groups, which all draw from the whole dataset. -/
theorem c10_matching_values_skipped (R : RngSpec) (df : Df) (col : String)
    (size : Nat) (f : ℚ) (seed : Option Nat) (svals : List Val)
    (hcol : df.column col = some svals)
    (hall : ∀ v ∈ svals, Val.dispString v = col) :
    sample_stratified R df size col seed = .ok Df.emptyDf ∧
    split_stratified R df f col seed = .ok (Df.emptyDf, Df.emptyDf) := by
  have hu : ∀ v ∈ uniqueVals svals, Val.dispString v = col :=
    fun v hv => hall v (mem_uniqueVals hv)
  constructor
  · simp only [sample_stratified, hcol]
    rw [foldl_sampleStratStep_skip R df col size (uniqueVals svals).length
      (uniqueVals svals) _ hu]
    rfl
  · simp only [split_stratified, hcol]
    rw [foldl_splitStratStep_skip R df col f (uniqueVals svals) _ hu]
    rfl

/-- Witness for the amended C10: the frame whose column 7 holds only the
value 7 (displaying as the name) yields an empty sample and empty split
outputs. -/
theorem c10_matching_values_skipped_witness :
    dfSeven.column "7" = some [Val.vInt 7, Val.vInt 7] ∧
    sample_stratified unitRng dfSeven 2 "7" none = .ok Df.emptyDf ∧
    split_stratified unitRng dfSeven (1/2) "7" none =
      .ok (Df.emptyDf, Df.emptyDf) := by
  have hcol : dfSeven.column "7" = some [Val.vInt 7, Val.vInt 7] := by decide
  have h := c10_matching_values_skipped unitRng dfSeven "7" 2 (1/2) none
    [Val.vInt 7, Val.vInt 7] hcol (by decide)
  exact ⟨hcol, h.1, h.2⟩

/-- C5: the stratified sampler does NOT restrict to the rows of the current
group before drawing.  On the two-row frame with groups 1 and 2 and sample
size 2, the per-group quota is round(2/2) = 1 and each unseeded group draw
takes head(1) of the WHOLE frame, so the result repeats the row with value 1
and contains no row of group 2 at all, contradicting the claimed
restriction. -/
theorem c5_stratified_sample_ignores_groups :
    sample_stratified unitRng dfG 2 "g" none =
      .ok ⟨["g"], [[Val.vInt 1], [Val.vInt 1]]⟩ := by
  have h1 : asUsize (rustRound (1 : ℚ)) = 1 := by
    norm_num [asUsize, rustRound]
  simp only [sample_stratified, dfG]
  norm_num +decide [sampleStratStep, uniqueVals, Df.column, Df.height,
    Val.dispString, h1, vstackAll, Df.head, Df.vstack, unitRng]

/-- C1: the seeded stratified split does not conserve the row count.  On the
two-row frame with groups 1 and 2 and fraction 1/2, each group iteration
partitions the WHOLE frame (1 train row + 1 test row), and the per-group
pieces are concatenated, so train and test together hold 4 rows while the
input holds 2. -/
theorem c1_stratified_split_breaks_row_conservation :
    (split_stratified unitRng dfG (1/2) "g" (some 0)).map
        (fun p => p.1.height + p.2.height) = .ok 4 ∧ dfG.height = 2 := by
  constructor
  · have h1 : asUsize (rustRound (1 : ℚ)) = 1 := by
      norm_num [asUsize, rustRound]
    simp only [split_stratified, dfG]
    norm_num +decide [splitStratStep, uniqueVals, Df.column, Df.height,
      Val.dispString, h1, vstackAll, Df.slice, Df.vstack, unitRng,
      Except.bind, Except.map, List.range_succ]
  · decide
